import Mathlib

/-!
Verification of the permission resolution and caching engine implemented in
`src/utils/permissions.py` (class `PermissionsManager`).

The Python code is shallowly embedded: dictionaries become association lists
keyed by `Nat` (all dictionary keys in the source are `str(id)` for an integer
id, and `str` is injective on integers, so we key directly by the id),
permission levels become `Int` (Python integers), the mutable fields of the
manager (`guild_cache`, the Mongo collection `db.guild_config`) become an
explicit `State` record threaded through each operation, and wall-clock time
(`time.time()`) becomes an explicit `now : Int` field of the state (whole
seconds; `cache_guild` rounds to whole seconds anyway).

`State` additionally carries instrumentation counters (`db_reads`,
`db_writes`, `cache_gets`) counting the calls to `find_one`,
`find_one_and_update` and `get_cached_guild` respectively, so that "this
operation never touched the cache / the store" is expressible as an equality
of states.
-/

namespace Perms

/-- Association-list model of a Python dict keyed by integer ids: `d.get(k)`. -/
def dget {α : Type} (l : List (Nat × α)) (k : Nat) : Option α :=
  match l with
  | [] => none
  | (k₁, v) :: tl => if k₁ = k then some v else dget tl k

/-- Association-list model of `d[k] = v` (replace the key if present, else add it). -/
def dset {α : Type} (l : List (Nat × α)) (k : Nat) (v : α) : List (Nat × α) :=
  match l with
  | [] => [(k, v)]
  | (k₁, w) :: tl => if k₁ = k then (k, v) :: tl else (k₁, w) :: dset tl k v

/-- Association-list model of the effect of `d.pop(k, None)` on the dict. -/
def dpop {α : Type} (l : List (Nat × α)) (k : Nat) : List (Nat × α) :=
  match l with
  | [] => []
  | (k₁, w) :: tl => if k₁ = k then dpop tl k else (k₁, w) :: dpop tl k

/-- The two permission fields used by the source: `"roles"` and `"members"`. -/
inductive PermField : Type where
  | roles : PermField
  | members : PermField
deriving DecidableEq

/-- The `permissions` payload of a guild document:
`{ roles?: {id: level}, members?: {id: level} }`.
`none` models an absent key, `some d` the key mapped to dict `d`. -/
structure Permissions : Type where
  roles : Option (List (Nat × Int))
  members : Option (List (Nat × Int))
deriving DecidableEq

/-- Model of `permissions.get(field)` for `field` in `{"roles", "members"}`. -/
def fieldGet (p : Permissions) : PermField → Option (List (Nat × Int))
  | PermField.roles => p.roles
  | PermField.members => p.members

/-- Python truthiness of the `permissions` dict: truthy iff it has a key. -/
def permTruthy (p : Permissions) : Bool :=
  p.roles.isSome || p.members.isSome

/-- Embedding of `extract_permission` (src/utils/permissions.py lines 35-41):
`if permissions.get(field) and permissions.get(field).get(str(id_resolvable)):
return that value else return 0`. The first conjunct is dict truthiness
(non-empty), the second is int truthiness (present and nonzero). -/
def extract_permission (id_resolvable : Nat) (field : PermField) (permissions : Permissions) : Int :=
  match fieldGet permissions field with
  | some d =>
    if d.isEmpty then 0
    else
      match dget d id_resolvable with
      | some v => if v ≠ 0 then v else 0
      | none => 0
  | none => 0

/-- A cache entry: the cached `permissions` payload dict together with the
`"last_refreshed"` key that `cache_guild` adds to it (lines 190-193). -/
structure CacheEntry : Type where
  data : Permissions
  last_refreshed : Int
deriving DecidableEq

abbrev Cache : Type := List (Nat × CacheEntry)

/-- A guild document of the `guild_config` collection (its `_id` is the key
it is stored under): `{ _id, permissions?: {...} }`. -/
structure Doc : Type where
  permissions : Option Permissions
deriving DecidableEq

/-- The mutable state of the manager: the `guild_cache` dict, the
`db.guild_config` collection (keyed by `str(guildID)`), the wall clock, and
instrumentation counters for store reads, store writes and cache lookups. -/
structure State : Type where
  guild_cache : Cache
  db : List (Nat × Doc)
  now : Int
  db_reads : Nat
  db_writes : Nat
  cache_gets : Nat
deriving DecidableEq

/-- Embedding of `cache_guild` (lines 186-195): store the payload under the guild id and
stamp it with `round(time.time())`. -/
def cache_guild (cache : Cache) (guildID : Nat) (data : Permissions) (now : Int) : Cache :=
  dset cache guildID ⟨data, now⟩

/-- Embedding of `get_cached_guild` (lines 197-205): return the entry if it exists and
`time.time() - entry["last_refreshed"] < 600`, else `None`. -/
def get_cached_guild (cache : Cache) (guildID : Nat) (now : Int) : Option CacheEntry :=
  match dget cache guildID with
  | some e => if now - e.last_refreshed < 600 then some e else none
  | none => none

/-- Embedding of `delete_cached_guild` (lines 207-217): `pop` the entry, returning whether
one was removed together with the resulting cache. -/
def delete_cached_guild (cache : Cache) (guildID : Nat) : Bool × Cache :=
  ((dget cache guildID).isSome, dpop cache guildID)

/-- Embedding of `get_guild_config` (lines 20-33): serve a fresh cache entry; otherwise
`find_one` the document (counted in `db_reads`), cache its `permissions`
payload when truthy, and return the payload or `None`. The `cache_gets`
counter counts the `get_cached_guild` consultations. -/
def get_guild_config (st : State) (guildID : Nat) : Option Permissions × State :=
  let st₁ : State := { st with cache_gets := st.cache_gets + 1 }
  match get_cached_guild st.guild_cache guildID st.now with
  | some e => (some e.data, st₁)
  | none =>
    let st₂ : State := { st₁ with db_reads := st₁.db_reads + 1 }
    match dget st.db guildID with
    | some doc =>
      match doc.permissions with
      | some p =>
        if permTruthy p then
          (some p, { st₂ with guild_cache := cache_guild st₂.guild_cache guildID p st₂.now })
        else (none, st₂)
      | none => (none, st₂)
    | none => (none, st₂)

/-- A role supplied by the event source: `role.id`, `role.guild.id`. -/
structure Role : Type where
  id : Nat
  guildId : Nat
deriving DecidableEq

/-- A member supplied by the event source: `member.id`, `member.guild.id`,
`member.guild.owner.id`, and `member.roles`. -/
structure Member : Type where
  id : Nat
  guildId : Nat
  guildOwnerId : Nat
  roles : List Role
deriving DecidableEq

/-- Embedding of `get_member_permission` (lines 43-59). -/
def get_member_permission (st : State) (m : Member) : Int × State :=
  match get_guild_config st m.guildId with
  | (permissions, st₂) =>
    let perm_level : Int := if m.guildOwnerId = m.id then 4 else 0
    match permissions with
    | some p =>
      let perm_level :=
        m.roles.foldl
          (fun pl r =>
            if extract_permission r.id PermField.roles p > pl
            then extract_permission r.id PermField.roles p else pl)
          perm_level
      let pureLv := extract_permission m.id PermField.members p
      ((if perm_level > pureLv then perm_level else pureLv), st₂)
    | none => (perm_level, st₂)

/-- Embedding of `get_role_permission` (lines 61-68). -/
def get_role_permission (st : State) (r : Role) : Int × State :=
  match get_guild_config st r.guildId with
  | (permissions, st₂) =>
    match permissions with
    | some p => (extract_permission r.id PermField.roles p, st₂)
    | none => (0, st₂)

/-- Embedding of `has_permission` (lines 78-106): the fast path returns `True` without
consulting cache or store when `req == 0 or perm_level >= req`; otherwise the
config is loaded, the role loop returns `True` at the first role whose
override reaches `req`, and finally `max(perm_level, member_override) >= req`
is returned. -/
def has_permission (st : State) (m : Member) (req : Int) : Bool × State :=
  let perm_level : Int := if m.guildOwnerId = m.id then 4 else 0
  if req == 0 || decide (req ≤ perm_level) then (true, st)
  else
    match get_guild_config st m.guildId with
    | (some p, st₂) =>
      if m.roles.any (fun r => decide (req ≤ extract_permission r.id PermField.roles p)) then
        (true, st₂)
      else
        let pureLv := extract_permission m.id PermField.members p
        let pureLv := if perm_level > pureLv then perm_level else pureLv
        (decide (req ≤ pureLv), st₂)
    | (none, st₂) => (decide (req ≤ perm_level), st₂)

/-- MongoDB `$set` of `permissions.<field>.<id>` on the payload of a document,
creating intermediate objects as needed. -/
def set_nested (p : Permissions) (field : PermField) (id_resolvable : Nat) (lv : Int) : Permissions :=
  match field with
  | PermField.roles => { p with roles := some (dset (p.roles.getD []) id_resolvable lv) }
  | PermField.members => { p with members := some (dset (p.members.getD []) id_resolvable lv) }

/-- Embedding of `find_one_and_update({_id: str(guildID)}, {$set: {permissions.field.id: lv}},
upsert=True, return_document=AFTER)`: atomically upsert and return the
post-update document. -/
def find_one_and_update_upsert (db : List (Nat × Doc)) (guildID : Nat) (field : PermField)
    (id_resolvable : Nat) (lv : Int) : List (Nat × Doc) × Doc :=
  let newPerms :=
    set_nested (((dget db guildID).bind Doc.permissions).getD ⟨none, none⟩) field id_resolvable lv
  let newDoc : Doc := ⟨some newPerms⟩
  (dset db guildID newDoc, newDoc)

/-- The value at `conf["permissions"][field][id]` of a (possibly absent)
returned document, `none` when any step of the path is missing. -/
def pathGet (conf : Option Doc) (field : PermField) (id_resolvable : Nat) : Option Int :=
  (conf.bind Doc.permissions).bind (fun p => (fieldGet p field).bind (fun d => dget d id_resolvable))

/-- The `permissions` payload of a returned document (empty when absent). -/
def respPermissions (resp : Option Doc) : Permissions :=
  (resp.bind Doc.permissions).getD ⟨none, none⟩

/-- The verification-and-cache tail of `set_db_perm_level` (lines 122-138),
with the document returned by the atomic upsert of the store as an explicit
parameter (`none` models the operation returning no document, handled by the
`or {}` on line 122). Line 124 checks `conf.get("permissions")` is truthy,
`conf.get("permissions").get(field)` is truthy and the value at the subject id
`is not None`; line 125 compares it to the intended level. On success the
payload is cached and `True` returned; otherwise the cache entry is deleted
and `False` returned. -/
def set_db_perm_level_resp (cache : Cache) (guildID : Nat) (field : PermField)
    (id_resolvable : Nat) (perm_level : Int) (resp : Option Doc) (now : Int) : Bool × Cache :=
  match resp.bind Doc.permissions with
  | some p =>
    if permTruthy p
        && (match fieldGet p field with
            | some d =>
              !d.isEmpty
                && (match dget d id_resolvable with
                    | some v => v == perm_level
                    | none => false)
            | none => false)
    then (true, cache_guild cache guildID p now)
    else (false, (delete_cached_guild cache guildID).2)
  | none => (false, (delete_cached_guild cache guildID).2)

/-- Embedding of `set_db_perm_level` (lines 109-138): the atomic upsert against the store
(counted in `db_writes`) followed by the verification tail. -/
def set_db_perm_level (st : State) (guildID : Nat) (field : PermField)
    (id_resolvable : Nat) (perm_level : Int) : Bool × State :=
  let upd := find_one_and_update_upsert st.db guildID field id_resolvable perm_level
  let res := set_db_perm_level_resp st.guild_cache guildID field id_resolvable perm_level
    (some upd.2) st.now
  (res.1, { st with db := upd.1, guild_cache := res.2, db_writes := st.db_writes + 1 })

/-- Embedding of `set_member_permission` (lines 140-146): clamp then write under
`"members"` keyed by the guild of the member. -/
def set_member_permission (st : State) (m : Member) (perm_level : Int) : Bool × State :=
  set_db_perm_level st m.guildId PermField.members m.id (max 0 (min 4 perm_level))

/-- Embedding of `set_role_permission` (lines 148-154): clamp then write under `"roles"`
keyed by the guild of the role. -/
def set_role_permission (st : State) (r : Role) (perm_level : Int) : Bool × State :=
  set_db_perm_level st r.guildId PermField.roles r.id (max 0 (min 4 perm_level))

/-- A resolved target of a permission update: `discord.Member` or a role. -/
inductive Target : Type where
  | member : Member → Target
  | role : Role → Target
deriving DecidableEq

/-- Embedding of `set_permission` (lines 156-162): dispatch on `isinstance(x, discord.Member)`. -/
def set_permission (st : State) (t : Target) (perm_level : Int) : Bool × State :=
  match t with
  | Target.member m => set_member_permission st m perm_level
  | Target.role r => set_role_permission st r perm_level

/-- A guild as seen through the event source: `guild.get_member` and
`guild.get_role` resolve against these lists. -/
structure Guild : Type where
  members : List Member
  roles : List Role
deriving DecidableEq

/-- Embedding of `handle_permission_update_request` (lines 166-183): resolve the guild via
`bot.get_guild`, then the member or role within it; on either lookup failure
return the result of a `logger.debug` call (`None`) without any write,
otherwise return the result of `set_permission`. -/
def handle_permission_update_request (world : List (Nat × Guild)) (st : State)
    (guild_id obj_id : Nat) (level : Int) (is_role : Bool) : Option Bool × State :=
  match dget world guild_id with
  | none => (none, st)
  | some guild =>
    let target : Option Target :=
      if is_role then (guild.roles.find? (fun r => r.id == obj_id)).map Target.role
      else (guild.members.find? (fun mm => mm.id == obj_id)).map Target.member
    match target with
    | none => (none, st)
    | some t =>
      let res := set_permission st t level
      (some res.1, res.2)

/-- Python runtime errors relevant to this embedding. -/
inductive PyErr : Type where
  | attributeError : PyErr
deriving DecidableEq

/-- The attributes `PermissionsManager.__init__` (lines 14-17) assigns on
`self`: `logger`, `bot` and `db` — and nothing else. -/
def init_attrs : List String := ["logger", "bot", "db"]

/-- Attribute-checked `get_cached_guild`: evaluating `self.guild_cache`
raises `AttributeError` when the attribute was never assigned. -/
def get_cached_guild_checked (attrs : List String) (cache : Cache) (guildID : Nat)
    (now : Int) : Except PyErr (Option CacheEntry) :=
  if "guild_cache" ∈ attrs then Except.ok (get_cached_guild cache guildID now)
  else Except.error PyErr.attributeError

/-- Attribute-checked `get_guild_config`: its first step (line 24) is the
`get_cached_guild` call, which evaluates `self.guild_cache`. -/
def get_guild_config_checked (attrs : List String) (st : State) (guildID : Nat) :
    Except PyErr (Option Permissions × State) :=
  match get_cached_guild_checked attrs st.guild_cache guildID st.now with
  | Except.error e => Except.error e
  | Except.ok _ => Except.ok (get_guild_config st guildID)

/-! ### Association-list lemmas -/

theorem dget_dset_self {α : Type} (l : List (Nat × α)) (k : Nat) (v : α) :
    dget (dset l k v) k = some v := by
  induction l with
  | nil => simp [dget, dset]
  | cons hd tl ih =>
    rcases hd with ⟨k₁, w⟩
    by_cases h : k₁ = k
    · simp [dget, dset, h]
    · simp [dget, dset, h, ih]

theorem dset_dset {α : Type} (l : List (Nat × α)) (k : Nat) (v w : α) :
    dset (dset l k v) k w = dset l k w := by
  induction l with
  | nil => simp [dset]
  | cons hd tl ih =>
    rcases hd with ⟨k₁, u⟩
    by_cases h : k₁ = k
    · simp [dset, h]
    · simp [dset, h, ih]

theorem dget_dpop_self {α : Type} (l : List (Nat × α)) (k : Nat) :
    dget (dpop l k) k = none := by
  induction l with
  | nil => simp [dget, dpop]
  | cons hd tl ih =>
    rcases hd with ⟨k₁, w⟩
    by_cases h : k₁ = k
    · simp [dpop, h, ih]
    · simp [dget, dpop, h, ih]

theorem dget_some_not_isEmpty {α : Type} (l : List (Nat × α)) (k : Nat) (v : α)
    (h : dget l k = some v) : l.isEmpty = false := by
  cases l with
  | nil => simp [dget] at h
  | cons hd tl => simp

theorem dset_not_isEmpty {α : Type} (l : List (Nat × α)) (k : Nat) (v : α) :
    (dset l k v).isEmpty = false := by
  cases l with
  | nil => simp [dset]
  | cons hd tl =>
    rcases hd with ⟨k₁, w⟩
    by_cases h : k₁ = k <;> simp [dset, h]

/-! ### Fold/max lemmas for the role loops -/

theorem foldl_max_shift (l : List Int) (a c : Int) :
    l.foldl max (max a c) = max (l.foldl max a) c := by
  induction l generalizing a with
  | nil => simp
  | cons x tl ih =>
    have h : max (max a c) x = max (max a x) c := by omega
    simp only [List.foldl_cons, h, ih]

theorem roleStep_foldl_eq (f : Role → Int) (l : List Role) (b : Int) (hb : 0 ≤ b) :
    l.foldl (fun pl r => if f r > pl then f r else pl) b
      = max b ((l.map f).foldl max 0) := by
  induction l generalizing b with
  | nil => simpa using by omega
  | cons r tl ih =>
    have hstep : (if f r > b then f r else b) = max b (f r) := by split <;> omega
    have hb₂ : 0 ≤ max b (f r) := by omega
    have hshift := foldl_max_shift (tl.map f) 0 (f r)
    have hmax : max 0 (f r) = max (0 : Int) (f r) := rfl
    simp only [List.foldl_cons, List.map_cons, hstep, ih _ hb₂]
    rw [foldl_max_shift (tl.map f) 0 (f r)]
    omega

theorem le_foldl_max_iff (l : List Int) (a req : Int) :
    req ≤ l.foldl max a ↔ req ≤ a ∨ ∃ x ∈ l, req ≤ x := by
  induction l generalizing a with
  | nil => simp
  | cons x tl ih =>
    simp only [List.foldl_cons, ih, List.mem_cons]
    constructor
    · rintro (h | ⟨y, hy, hry⟩)
      · rcases le_max_iff.mp h with h₁ | h₂
        · exact Or.inl h₁
        · exact Or.inr ⟨x, Or.inl rfl, h₂⟩
      · exact Or.inr ⟨y, Or.inr hy, hry⟩
    · rintro (h | ⟨y, hy | hy, hry⟩)
      · exact Or.inl (le_max_iff.mpr (Or.inl h))
      · exact Or.inl (le_max_iff.mpr (Or.inr (hy ▸ hry)))
      · exact Or.inr ⟨y, hy, hry⟩

theorem if_gt_eq_max (x y : Int) : (if x > y then x else y) = max x y := by
  split <;> omega

/-! ### The resolver formula -/

/-- Closed form of `get_member_permission`: the returned level is
`max(baseline, max(roleMax, memberOverride))` when the loaded config is
present, and `baseline` otherwise. -/
theorem get_member_permission_fst (st : State) (m : Member) :
    (get_member_permission st m).1 =
      (match (get_guild_config st m.guildId).1 with
       | some p =>
           max (if m.guildOwnerId = m.id then (4 : Int) else 0)
             (max ((m.roles.map (fun r => extract_permission r.id PermField.roles p)).foldl max 0)
               (extract_permission m.id PermField.members p))
       | none => if m.guildOwnerId = m.id then (4 : Int) else 0) := by
  rcases h : get_guild_config st m.guildId with ⟨cfg, st₂⟩
  cases cfg with
  | none => simp [get_member_permission, h]
  | some p =>
    have hb : (0 : Int) ≤ if m.guildOwnerId = m.id then (4 : Int) else 0 := by
      split <;> omega
    simp only [get_member_permission, h]
    rw [roleStep_foldl_eq (fun r => extract_permission r.id PermField.roles p) m.roles _ hb]
    rw [if_gt_eq_max]
    exact max_assoc _ _ _

/-- C1: for every individual principal, `get_member_permission` returns
`max(baseline, roleMax, memberOverride)` — baseline 4 for the tenant owner
else 0, roleMax the maximum override across the roles of the member (absent
entries contributing 0 through `extract_permission`), memberOverride the
explicit per-member override (0 if none) — and exactly the baseline when the
loaded config is absent. -/
theorem resolveLevel_individual_max_formula (st : State) (m : Member) :
    (get_member_permission st m).1 =
      (match (get_guild_config st m.guildId).1 with
       | some p =>
           max (if m.guildOwnerId = m.id then (4 : Int) else 0)
             (max ((m.roles.map (fun r => extract_permission r.id PermField.roles p)).foldl max 0)
               (extract_permission m.id PermField.members p))
       | none => if m.guildOwnerId = m.id then (4 : Int) else 0) :=
  get_member_permission_fst st m

/-- C2: `has_permission` and `get_member_permission` are behaviorally
consistent: starting from the same state, `has_permission st m req` returns
`True` exactly when `get_member_permission st m` returns a level at least
`req`. -/
theorem hasPermission_consistent_with_resolveLevel (st : State) (m : Member) (req : Int) :
    (has_permission st m req).1 = true ↔ req ≤ (get_member_permission st m).1 := by
  rw [get_member_permission_fst]
  have hb : (0 : Int) ≤ (if m.guildOwnerId = m.id then (4 : Int) else 0) := by split <;> omega
  by_cases hfast :
      (req == 0 || decide (req ≤ if m.guildOwnerId = m.id then (4 : Int) else 0)) = true
  · have hreq : req = 0 ∨ req ≤ (if m.guildOwnerId = m.id then (4 : Int) else 0) := by
      simpa using hfast
    have hreqb : req ≤ (if m.guildOwnerId = m.id then (4 : Int) else 0) := by
      rcases hreq with h | h
      · omega
      · exact h
    simp only [has_permission, hfast, if_true, true_iff]
    cases hcfg : (get_guild_config st m.guildId).1 with
    | none => simpa using hreqb
    | some p =>
      simp only
      exact le_trans hreqb (le_max_left _ _)
  · have hfastF :
        (req == 0 || decide (req ≤ if m.guildOwnerId = m.id then (4 : Int) else 0)) = false := by
      simp only [Bool.not_eq_true] at hfast
      exact hfast
    have hb_lt : (if m.guildOwnerId = m.id then (4 : Int) else 0) < req := by
      by_contra hcon
      push_neg at hcon
      simp [hcon] at hfastF
    rcases h : get_guild_config st m.guildId with ⟨cfg, st₂⟩
    cases cfg with
    | none =>
      simp only [has_permission, hfastF, Bool.false_eq_true, if_false, h]
      simp
    | some p =>
      simp only [has_permission, hfastF, Bool.false_eq_true, if_false, h]
      by_cases hany :
          (m.roles.any fun r => decide (req ≤ extract_permission r.id PermField.roles p)) = true
      · simp only [hany, if_true, true_iff]
        rcases List.any_eq_true.mp hany with ⟨r, hr, hrq⟩
        have hrq' : req ≤ extract_permission r.id PermField.roles p := of_decide_eq_true hrq
        have hM : req ≤ (m.roles.map
            (fun r => extract_permission r.id PermField.roles p)).foldl max 0 := by
          refine (le_foldl_max_iff _ _ _).mpr (Or.inr ?_)
          exact ⟨extract_permission r.id PermField.roles p, List.mem_map_of_mem _ hr, hrq'⟩
        exact le_trans hM (le_trans (le_max_left _ _) (le_max_right _ _))
      · have hanyF :
            (m.roles.any fun r => decide (req ≤ extract_permission r.id PermField.roles p))
              = false := by
          simp only [Bool.not_eq_true] at hany
          exact hany
        have hall : ∀ r ∈ m.roles, ¬ req ≤ extract_permission r.id PermField.roles p := by
          intro r hr hcon
          have htrue : (m.roles.any
              fun r => decide (req ≤ extract_permission r.id PermField.roles p)) = true :=
            List.any_eq_true.mpr ⟨r, hr, decide_eq_true hcon⟩
          rw [htrue] at hanyF
          exact Bool.true_eq_false ▸ hanyF ▸ rfl
        simp only [hanyF, Bool.false_eq_true, if_false]
        rw [if_gt_eq_max]
        simp only [decide_eq_true_eq]
        constructor
        · intro hle
          rcases le_max_iff.mp hle with h₁ | h₂
          · omega
          · exact le_trans h₂ (le_trans (le_max_right _ _) (le_max_right _ _))
        · intro hle
          rcases le_max_iff.mp hle with h₁ | h₂
          · omega
          rcases le_max_iff.mp h₂ with h₃ | h₄
          · rcases (le_foldl_max_iff _ _ _).mp h₃ with h₅ | ⟨x, hx, hxq⟩
            · exact le_max_iff.mpr (Or.inl (by omega))
            · rcases List.mem_map.mp hx with ⟨r, hr, rfl⟩
              exact absurd hxq (hall r hr)
          · exact le_max_iff.mpr (Or.inr h₄)

/-! ### The writer path -/

theorem fieldGet_set_nested_self (p : Permissions) (field : PermField) (id_r : Nat) (lv : Int) :
    fieldGet (set_nested p field id_r lv) field
      = some (dset ((fieldGet p field).getD []) id_r lv) := by
  cases field <;> rfl

theorem permTruthy_set_nested (p : Permissions) (field : PermField) (id_r : Nat) (lv : Int) :
    permTruthy (set_nested p field id_r lv) = true := by
  cases field <;> simp [set_nested, permTruthy]

theorem extract_set_nested_self (p : Permissions) (field : PermField) (id_r : Nat) (lv : Int) :
    extract_permission id_r field (set_nested p field id_r lv) = lv := by
  unfold extract_permission
  rw [fieldGet_set_nested_self]
  simp only [dset_not_isEmpty, Bool.false_eq_true, if_false, dget_dset_self]
  by_cases h : lv = 0 <;> simp [h]

theorem set_nested_idem (p : Permissions) (field : PermField) (id_r : Nat) (v w : Int) :
    set_nested (set_nested p field id_r v) field id_r w = set_nested p field id_r w := by
  cases field <;> simp [set_nested, dset_dset]

/-- Full characterization of `set_db_perm_level` against the faithful store
model: the write always verifies, the payload of the document becomes the updated
payload, the cache entry is refreshed with it at the current time, and the
call returns `True`. -/
theorem set_db_perm_level_spec (st : State) (guildID : Nat) (field : PermField)
    (id_r : Nat) (lv : Int) :
    set_db_perm_level st guildID field id_r lv
      = (true,
         { st with
             db := dset st.db guildID
               ⟨some (set_nested (((dget st.db guildID).bind Doc.permissions).getD ⟨none, none⟩)
                  field id_r lv)⟩,
             guild_cache := dset st.guild_cache guildID
               ⟨set_nested (((dget st.db guildID).bind Doc.permissions).getD ⟨none, none⟩)
                  field id_r lv, st.now⟩,
             db_writes := st.db_writes + 1 }) := by
  unfold set_db_perm_level find_one_and_update_upsert set_db_perm_level_resp
  simp only [Option.some_bind]
  rw [permTruthy_set_nested, fieldGet_set_nested_self]
  simp [dset_not_isEmpty, dget_dset_self, cache_guild]

/-- C3: the verification tail of `set_db_perm_level` returns `True` and
refreshes the cache with the returned permissions payload exactly when the
document returned by the upsert carries `permissions.<field>.<id>` equal to
the intended level; on any mismatch (no document, missing path, or a
different value) it deletes the cache entry of the tenant and returns `False`, so
no pre-write snapshot survives under that key. -/
theorem setLevel_verification_iff (cache : Cache) (guildID : Nat) (field : PermField)
    (id_r : Nat) (lv : Int) (resp : Option Doc) (now : Int) :
    ((set_db_perm_level_resp cache guildID field id_r lv resp now).1 = true
        ↔ pathGet resp field id_r = some lv)
    ∧ (set_db_perm_level_resp cache guildID field id_r lv resp now
        = if pathGet resp field id_r = some lv
          then (true, cache_guild cache guildID (respPermissions resp) now)
          else (false, (delete_cached_guild cache guildID).2))
    ∧ dget (delete_cached_guild cache guildID).2 guildID = none := by
  have heq : set_db_perm_level_resp cache guildID field id_r lv resp now
      = if pathGet resp field id_r = some lv
        then (true, cache_guild cache guildID (respPermissions resp) now)
        else (false, (delete_cached_guild cache guildID).2) := by
    cases resp with
    | none => simp [set_db_perm_level_resp, pathGet, respPermissions]
    | some doc =>
      cases hperm : doc.permissions with
      | none => simp [set_db_perm_level_resp, pathGet, hperm, respPermissions]
      | some p =>
        cases hf : fieldGet p field with
        | none => simp [set_db_perm_level_resp, pathGet, hperm, hf, respPermissions]
        | some d =>
          cases hd : dget d id_r with
          | none =>
            simp [set_db_perm_level_resp, pathGet, hperm, hf, hd, respPermissions]
          | some v =>
            have hne : d.isEmpty = false := dget_some_not_isEmpty d id_r v hd
            have hpt : permTruthy p = true := by
              cases field
              · simp only [fieldGet] at hf
                simp [permTruthy, hf]
              · simp only [fieldGet] at hf
                simp [permTruthy, hf]
            by_cases hv : v = lv
            · simp [set_db_perm_level_resp, pathGet, hperm, hf, hd, hne, hpt, hv,
                respPermissions]
            · simp [set_db_perm_level_resp, pathGet, hperm, hf, hd, hne, hpt, hv,
                respPermissions]
  refine ⟨?_, heq, dget_dpop_self cache guildID⟩
  rw [heq]
  by_cases hp : pathGet resp field id_r = some lv
  · simp [hp]
  · simp [hp]

/-- C7: calling `set_db_perm_level` twice in succession with the same
`(tenant, field, subject, level)` leaves the store and the cache in the same
final state as calling it once, and both calls return the same boolean. -/
theorem setLevel_idempotent (st : State) (guildID : Nat) (field : PermField)
    (id_r : Nat) (lv : Int) :
    (set_db_perm_level (set_db_perm_level st guildID field id_r lv).2 guildID field id_r lv).2.db
        = (set_db_perm_level st guildID field id_r lv).2.db
    ∧ (set_db_perm_level (set_db_perm_level st guildID field id_r lv).2 guildID field
          id_r lv).2.guild_cache
        = (set_db_perm_level st guildID field id_r lv).2.guild_cache
    ∧ (set_db_perm_level (set_db_perm_level st guildID field id_r lv).2 guildID field id_r lv).1
        = (set_db_perm_level st guildID field id_r lv).1 := by
  simp [set_db_perm_level_spec, dget_dset_self, dset_dset, set_nested_idem]

/-- C6: `set_member_permission` and `set_role_permission` clamp the level to
`[0, 4]` before writing: the value handed to the store upsert is
`min 4 (max 0 lv)`, the write succeeds, and both the persisted document and
the refreshed cache entry carry the clamped level for the subject. -/
theorem setLevel_clamps (st : State) (m : Member) (r : Role) (lv : Int) :
    set_member_permission st m lv
        = set_db_perm_level st m.guildId PermField.members m.id (min 4 (max 0 lv))
    ∧ set_role_permission st r lv
        = set_db_perm_level st r.guildId PermField.roles r.id (min 4 (max 0 lv))
    ∧ (set_member_permission st m lv).1 = true
    ∧ pathGet (dget (set_member_permission st m lv).2.db m.guildId) PermField.members m.id
        = some (min 4 (max 0 lv))
    ∧ (∃ e, dget (set_member_permission st m lv).2.guild_cache m.guildId = some e
          ∧ e.last_refreshed = st.now
          ∧ extract_permission m.id PermField.members e.data = min 4 (max 0 lv))
    ∧ (set_role_permission st r lv).1 = true
    ∧ pathGet (dget (set_role_permission st r lv).2.db r.guildId) PermField.roles r.id
        = some (min 4 (max 0 lv))
    ∧ (∃ e, dget (set_role_permission st r lv).2.guild_cache r.guildId = some e
          ∧ e.last_refreshed = st.now
          ∧ extract_permission r.id PermField.roles e.data = min 4 (max 0 lv)) := by
  have hclamp : max 0 (min 4 lv) = min 4 (max 0 lv) := by omega
  have hmem : set_member_permission st m lv
      = set_db_perm_level st m.guildId PermField.members m.id (min 4 (max 0 lv)) := by
    unfold set_member_permission
    rw [hclamp]
  have hrole : set_role_permission st r lv
      = set_db_perm_level st r.guildId PermField.roles r.id (min 4 (max 0 lv)) := by
    unfold set_role_permission
    rw [hclamp]
  refine ⟨hmem, hrole, ?_, ?_, ?_, ?_, ?_, ?_⟩
  · rw [hmem, set_db_perm_level_spec]
  · rw [hmem, set_db_perm_level_spec]
    simp [pathGet, dget_dset_self, fieldGet_set_nested_self]
  · rw [hmem, set_db_perm_level_spec]
    exact ⟨_, dget_dset_self _ _ _, rfl, extract_set_nested_self _ _ _ _⟩
  · rw [hrole, set_db_perm_level_spec]
  · rw [hrole, set_db_perm_level_spec]
    simp [pathGet, dget_dset_self, fieldGet_set_nested_self]
  · rw [hrole, set_db_perm_level_spec]
    exact ⟨_, dget_dset_self _ _ _, rfl, extract_set_nested_self _ _ _ _⟩

/-! ### Fast path, TTL, handler, construction, cache transparency -/

/-- C4 counterexample: the member is the tenant owner, yet `has_permission`
with required level 5 returns `False` (the fast path needs
`req == 0 or perm_level >= req`, and 4 < 5), refuting "for an owner it is
true for every requiredLevel". -/
theorem hasPermission_owner_counterexample :
    (⟨1, 10, 1, []⟩ : Member).guildOwnerId = (⟨1, 10, 1, []⟩ : Member).id
    ∧ (has_permission ⟨[], [], 0, 0, 0, 0⟩ ⟨1, 10, 1, []⟩ 5).1 = false := by
  decide

/-- C4 (amended): `has_permission` returns `True` immediately, leaving the
state untouched (so no cache lookup and no store access, by the
instrumentation counters), whenever the required level is 0 or the principal
is the tenant owner and the required level is at most 4; in particular
`has_permission st m 0` is always `(true, st)`. -/
theorem hasPermission_fast_path_amended (st : State) (m : Member) (req : Int)
    (h : req = 0 ∨ (m.guildOwnerId = m.id ∧ req ≤ 4)) :
    has_permission st m req = (true, st) := by
  unfold has_permission
  rcases h with h | h
  · simp [h]
  · rcases h with ⟨how, hr⟩
    simp [how, hr]

theorem hasPermission_fast_path_amended_witness :
    has_permission ⟨[], [], 0, 0, 0, 0⟩ ⟨1, 10, 1, []⟩ 3 = (true, ⟨[], [], 0, 0, 0, 0⟩) :=
  hasPermission_fast_path_amended _ _ _ (Or.inr ⟨rfl, by decide⟩)

/-- C5: a cache entry is served by `get_cached_guild` iff it exists and its
age is strictly below 600 seconds; consequently a `get_guild_config` issued
599 seconds after the refresh returns the cached snapshot with no store
access and no state change beyond the cache-lookup counter, while one issued
601 seconds after the refresh performs a store read. -/
theorem cache_ttl_serve_iff (cache : Cache) (guildID : Nat) (now : Int) :
    (∀ e, get_cached_guild cache guildID now = some e
        ↔ (dget cache guildID = some e ∧ now - e.last_refreshed < 600))
    ∧ (∀ st e, st.guild_cache = cache → dget cache guildID = some e →
        st.now = e.last_refreshed + 599 →
        get_guild_config st guildID
          = (some e.data, { st with cache_gets := st.cache_gets + 1 }))
    ∧ (∀ st e, st.guild_cache = cache → dget cache guildID = some e →
        st.now = e.last_refreshed + 601 →
        (get_guild_config st guildID).2.db_reads = st.db_reads + 1) := by
  refine ⟨?_, ?_, ?_⟩
  · intro e
    unfold get_cached_guild
    cases hd : dget cache guildID with
    | none => simp
    | some e₁ =>
      by_cases ht : now - e₁.last_refreshed < 600
      · simp only [ht, if_true, Option.some.injEq]
        constructor
        · rintro rfl
          exact ⟨rfl, ht⟩
        · rintro ⟨rfl, _⟩
          rfl
      · simp only [ht, if_false, Option.some.injEq]
        constructor
        · rintro ⟨⟩
        · rintro ⟨rfl, h⟩
          exact absurd h ht
  · intro st e hc hd hnow
    have hlt : st.now - e.last_refreshed < 600 := by omega
    have hcg : get_cached_guild st.guild_cache guildID st.now = some e := by
      simp [get_cached_guild, hc, hd, hlt]
    simp [get_guild_config, hcg]
  · intro st e hc hd hnow
    have hge : ¬ st.now - e.last_refreshed < 600 := by omega
    have hcg : get_cached_guild st.guild_cache guildID st.now = none := by
      simp [get_cached_guild, hc, hd, hge]
    cases hdb : dget st.db guildID with
    | none => simp [get_guild_config, hcg, hdb]
    | some doc =>
      cases hp : doc.permissions with
      | none => simp [get_guild_config, hcg, hdb, hp]
      | some p =>
        by_cases ht : permTruthy p = true
        · simp [get_guild_config, hcg, hdb, hp, ht]
        · simp [get_guild_config, hcg, hdb, hp, ht]

theorem cache_ttl_serve_iff_witness :
    get_guild_config ⟨[(7, ⟨⟨none, some [(1, 2)]⟩, 1000⟩)], [], 1599, 0, 0, 0⟩ 7
        = (some ⟨none, some [(1, 2)]⟩,
           ⟨[(7, ⟨⟨none, some [(1, 2)]⟩, 1000⟩)], [], 1599, 0, 0, 1⟩)
    ∧ (get_guild_config ⟨[(7, ⟨⟨none, some [(1, 2)]⟩, 1000⟩)], [], 1601, 0, 0, 0⟩ 7).2.db_reads
        = 0 + 1 := by
  constructor
  · exact (cache_ttl_serve_iff [(7, ⟨⟨none, some [(1, 2)]⟩, 1000⟩)] 7 0).2.1
      ⟨[(7, ⟨⟨none, some [(1, 2)]⟩, 1000⟩)], [], 1599, 0, 0, 0⟩
      ⟨⟨none, some [(1, 2)]⟩, 1000⟩ rfl (by decide) (by decide)
  · exact (cache_ttl_serve_iff [(7, ⟨⟨none, some [(1, 2)]⟩, 1000⟩)] 7 0).2.2
      ⟨[(7, ⟨⟨none, some [(1, 2)]⟩, 1000⟩)], [], 1601, 0, 0, 0⟩
      ⟨⟨none, some [(1, 2)]⟩, 1000⟩ rfl (by decide) (by decide)

/-- C8: the remote update handler performs no write when lookup fails: if the
guild, or the member/role inside it, cannot be resolved, the result is the
`logger.debug` value (`None`) and the state — store, cache and write counter —
is exactly the input state; when the target resolves, the handler returns
the boolean of `set_permission` and that call performs exactly one store write. -/
theorem handleUpdate_no_write_on_lookup_failure (world : List (Nat × Guild)) (st : State)
    (guild_id obj_id : Nat) (level : Int) (is_role : Bool) :
    (dget world guild_id = none →
      handle_permission_update_request world st guild_id obj_id level is_role = (none, st))
    ∧ (∀ g, dget world guild_id = some g →
        (if is_role then (g.roles.find? (fun r => r.id == obj_id)).map Target.role
         else (g.members.find? (fun mm => mm.id == obj_id)).map Target.member) = none →
        handle_permission_update_request world st guild_id obj_id level is_role = (none, st))
    ∧ (∀ g t, dget world guild_id = some g →
        (if is_role then (g.roles.find? (fun r => r.id == obj_id)).map Target.role
         else (g.members.find? (fun mm => mm.id == obj_id)).map Target.member) = some t →
        handle_permission_update_request world st guild_id obj_id level is_role
            = (some (set_permission st t level).1, (set_permission st t level).2)
          ∧ (set_permission st t level).2.db_writes = st.db_writes + 1) := by
  refine ⟨?_, ?_, ?_⟩
  · intro h
    simp [handle_permission_update_request, h]
  · intro g hg ht
    simp [handle_permission_update_request, hg, ht]
  · intro g t hg ht
    refine ⟨by simp [handle_permission_update_request, hg, ht], ?_⟩
    cases t with
    | member mm => simp [set_permission, set_member_permission, set_db_perm_level_spec]
    | role rr => simp [set_permission, set_role_permission, set_db_perm_level_spec]

theorem handleUpdate_no_write_witness :
    handle_permission_update_request [(10, ⟨[⟨1, 10, 99, []⟩], []⟩)]
        ⟨[], [], 0, 0, 0, 0⟩ 10 1 3 false
        = (some (set_permission ⟨[], [], 0, 0, 0, 0⟩ (Target.member ⟨1, 10, 99, []⟩) 3).1,
           (set_permission ⟨[], [], 0, 0, 0, 0⟩ (Target.member ⟨1, 10, 99, []⟩) 3).2)
      ∧ (set_permission ⟨[], [], 0, 0, 0, 0⟩ (Target.member ⟨1, 10, 99, []⟩) 3).2.db_writes
          = (⟨[], [], 0, 0, 0, 0⟩ : State).db_writes + 1 :=
  (handleUpdate_no_write_on_lookup_failure [(10, ⟨[⟨1, 10, 99, []⟩], []⟩)]
      ⟨[], [], 0, 0, 0, 0⟩ 10 1 3 false).2.2
    ⟨[⟨1, 10, 99, []⟩], []⟩ (Target.member ⟨1, 10, 99, []⟩) (by decide) (by decide)

/-- C9: `__init__` assigns only `logger`, `bot` and `db`, so on a freshly
constructed manager the first `get_guild_config` call — whose first step
evaluates `self.guild_cache` inside `get_cached_guild` — raises
`AttributeError` instead of falling through to the store. -/
theorem fresh_manager_first_get_raises (db : List (Nat × Doc)) (now : Int) (guildID : Nat) :
    get_guild_config_checked init_attrs ⟨[], db, now, 0, 0, 0⟩ guildID
      = Except.error PyErr.attributeError := by
  simp [get_guild_config_checked, get_cached_guild_checked, init_attrs]

/-- C10: `cache_guild` stores the permissions payload itself, extended with
the `last_refreshed` timestamp, under the guild id; the entry later returned
from the cache yields, for every field and subject id, the same
`extract_permission` level as the original payload. -/
theorem cacheGuild_preserves_extract (cache : Cache) (guildID : Nat) (p : Permissions)
    (now : Int) (field : PermField) (id_r : Nat) :
    dget (cache_guild cache guildID p now) guildID = some ⟨p, now⟩
    ∧ get_cached_guild (cache_guild cache guildID p now) guildID now = some ⟨p, now⟩
    ∧ (∀ e, get_cached_guild (cache_guild cache guildID p now) guildID now = some e →
        extract_permission id_r field e.data = extract_permission id_r field p) := by
  have h₁ : dget (cache_guild cache guildID p now) guildID = some ⟨p, now⟩ :=
    dget_dset_self _ _ _
  have h₂ : get_cached_guild (cache_guild cache guildID p now) guildID now = some ⟨p, now⟩ := by
    have hlt : now - (⟨p, now⟩ : CacheEntry).last_refreshed < 600 := by
      show now - now < (600 : Int)
      omega
    simp [get_cached_guild, h₁, hlt]
  refine ⟨h₁, h₂, ?_⟩
  intro e he
  rw [h₂] at he
  injection he with he
  rw [← he]

theorem cacheGuild_preserves_extract_witness :
    extract_permission 2 PermField.roles
        ((⟨⟨some [(2, 3)], none⟩, 100⟩ : CacheEntry)).data
      = extract_permission 2 PermField.roles ⟨some [(2, 3)], none⟩ :=
  (cacheGuild_preserves_extract [] 5 ⟨some [(2, 3)], none⟩ 100 PermField.roles 2).2.2
    ⟨⟨some [(2, 3)], none⟩, 100⟩ (by decide)

end Perms
